import Mathlib

/-
Verification of the core components of the ecomerce_api_fast_API repository:
the JWT token service (src/app/auth.py), the Redis sliding-window rate
limiter (src/app/redis_client.py), the cache-aside key derivation and
invalidation paths (src/app/redis_client.py, src/app/crud.py, src/main.py)
and the rate-limit middleware composition (src/app/middleware.py,
src/app/exceptions.py).  Machine integers are modelled as Nat/Int (Python
integers are unbounded), fallible code as Except/Option, and the Redis
state owned by one client key as an explicit value threaded through the
operations.
-/

/- ===== Python str() and int() on integers =====
   create_access_token stores the subject as str(user_id) and verify_token
   recovers it with int(payload.get("sub")); check_rate_limit uses
   str(current_time) as the sorted-set member.  pyStrOfNat renders a Nat in
   decimal; pyStrOfInt prepends a minus sign for negatives, as str() does.
   pyIntOfString models int() on the relevant domain: an optional sign
   followed by a nonempty run of decimal digits parses, anything else
   raises ValueError (modelled as none). -/

def digitChar (d : Nat) : Char := Char.ofNat (48 + d)

def natDigitsAux : Nat → Nat → List Nat
  | 0, _ => []
  | fuel + 1, n => if n < 10 then [n] else natDigitsAux fuel (n / 10) ++ [n % 10]

def pyStrOfNat (n : Nat) : String := String.mk ((natDigitsAux (n + 1) n).map digitChar)

def pyStrOfInt (i : Int) : String :=
  if i < 0 then "-" ++ pyStrOfNat i.natAbs else pyStrOfNat i.natAbs

def digitVal (c : Char) : Option Nat :=
  if ('0' ≤ c ∧ c ≤ '9') then some (c.toNat - 48) else none

def parseDigitsCore : Nat → List Char → Option Nat
  | a, [] => some a
  | a, c :: cs =>
    match digitVal c with
    | some d => parseDigitsCore (a * 10 + d) cs
    | none => none

def parseDigits (l : List Char) : Option Nat :=
  if l.isEmpty then none else parseDigitsCore 0 l

def pyIntOfChars : List Char → Option Int
  | '-' :: rest => (parseDigits rest).map (fun n => -(Int.ofNat n))
  | '+' :: rest => (parseDigits rest).map (fun n => Int.ofNat n)
  | l => (parseDigits l).map (fun n => Int.ofNat n)

def pyIntOfString (s : String) : Option Int := pyIntOfChars s.data

/- ===== Token service (src/app/auth.py) =====
   A JWT is modelled as its decoded claim set together with the key it was
   signed with; jwt.encode/jwt.decode of the jose library are inverse on
   that representation.  jwt.decode raises a JWTError subclass when the
   signature does not verify or the exp claim has passed; both are caught
   by the except JWTError clause of verify_token.  payload.get returns
   None for an absent claim, hence the Option fields. -/

structure Payload where
  sub : Option String
  exp : Nat
  type : Option String
deriving DecidableEq, Repr

structure JwtToken where
  payload : Payload
  key : String
deriving DecidableEq, Repr

def SECRET_KEY : String := "ba7062a66cca657e2d72a1dba6620d0e86a85b0d6badf833c4ffbfc9b1b7d477"

def ACCESS_TOKEN_EXPIRE_MINUTES : Nat := 30

def REFRESH_TOKEN_EXPIRE_DAYS : Nat := 7

inductive JwtError
  | invalidSignature
  | expiredSignature
deriving DecidableEq, Repr

def jwt_decode (t : JwtToken) (key : String) (now : Nat) : Except JwtError Payload :=
  if t.key ≠ key then .error .invalidSignature
  else if t.payload.exp ≤ now then .error .expiredSignature
  else .ok t.payload

def create_access_token (user_id : Int) (now : Nat) : JwtToken :=
  { payload := { sub := some (pyStrOfInt user_id),
                 exp := now + ACCESS_TOKEN_EXPIRE_MINUTES * 60,
                 type := some ("access") },
    key := SECRET_KEY }

def create_refresh_token (user_id : Int) (now : Nat) : JwtToken :=
  { payload := { sub := some (pyStrOfInt user_id),
                 exp := now + REFRESH_TOKEN_EXPIRE_DAYS * 24 * 60 * 60,
                 type := some ("refresh") },
    key := SECRET_KEY }

/- verify_token raises HTTPException(401) for a JWTError, for a wrong type
   claim and for a missing sub claim; the final int(user_id) conversion is
   outside every except clause, so a non-numeric sub raises an uncaught
   ValueError, modelled by the valueError constructor. -/

inductive VerifyError
  | httpUnauthorized (detail : String)
  | valueError (s : String)
deriving DecidableEq, Repr

def VerifyError.isAuthFailure : VerifyError → Bool
  | .httpUnauthorized _ => true
  | .valueError _ => false

def verify_token (token : JwtToken) (expected_type : String) (now : Nat) :
    Except VerifyError Int :=
  match jwt_decode token SECRET_KEY now with
  | .error _ => .error (.httpUnauthorized ("Token inválido o expirado"))
  | .ok payload =>
    if payload.type ≠ some expected_type then
      .error (.httpUnauthorized ("Tipo de token incorrecto"))
    else
      match payload.sub with
      | none => .error (.httpUnauthorized ("Token inválido"))
      | some s =>
        match pyIntOfString s with
        | some n => .ok n
        | none => .error (.valueError s)

def isOkE {ε α : Type} : Except ε α → Bool
  | .ok _ => true
  | .error _ => false

/- ===== Rate limiter (src/app/redis_client.py, check_rate_limit) =====
   RLState is the value Redis holds under the key rate_limit:<user_ip> for
   one client: the sorted-set entries (member string, score) plus the
   keys expiration instant.  Redis deletes the key when its expiration
   passes (expireKeyAt, applied lazily on access) and when the sorted set
   loses its last member.  Times are epoch seconds as produced by
   int(time.time()). -/

structure RLState where
  entries : List (String × Nat)
  expireAt : Option Nat
deriving DecidableEq, Repr

structure RLResult where
  allowed : Bool
  remaining : Int
  reset_time : Int
deriving DecidableEq, Repr

def expireKeyAt (st : RLState) (now : Nat) : RLState :=
  match st.expireAt with
  | some e => if e ≤ now then { entries := [], expireAt := none } else st
  | none => st

def dropEmptyKey (st : RLState) : RLState :=
  if st.entries.isEmpty then { st with expireAt := none } else st

def redis_zremrangebyscore (st : RLState) (now : Nat) (lo hi : Int) : RLState :=
  let st1 := expireKeyAt st now
  dropEmptyKey
    { st1 with
      entries := st1.entries.filter
        (fun p => decide (¬(lo ≤ (p.2 : Int) ∧ (p.2 : Int) ≤ hi))) }

def redis_zcard (st : RLState) (now : Nat) : Nat × RLState :=
  let st1 := expireKeyAt st now
  (st1.entries.length, st1)

def redis_ttl (st : RLState) (now : Nat) : Int × RLState :=
  let st1 := expireKeyAt st now
  if st1.entries.isEmpty then (-2, st1)
  else
    match st1.expireAt with
    | some e => ((e : Int) - (now : Int), st1)
    | none => (-1, st1)

def redis_zadd (st : RLState) (now : Nat) (member : String) (score : Nat) : RLState :=
  let st1 := expireKeyAt st now
  if st1.entries.any (fun p => decide (p.1 = member)) then
    { st1 with
      entries := st1.entries.map (fun p => if p.1 = member then (member, score) else p) }
  else
    { st1 with entries := st1.entries ++ [(member, score)] }

def redis_expire (st : RLState) (now : Nat) (seconds : Nat) : RLState :=
  let st1 := expireKeyAt st now
  if st1.entries.isEmpty then st1 else { st1 with expireAt := some (now + seconds) }

def check_rate_limit (st : RLState) (now limit window_seconds : Nat) :
    RLResult × RLState :=
  let st1 := redis_zremrangebyscore st now 0 ((now : Int) - (window_seconds : Int))
  let c := (redis_zcard st1 now).1
  let st2 := (redis_zcard st1 now).2
  if c ≥ limit then
    let t := (redis_ttl st2 now).1
    let st3 := (redis_ttl st2 now).2
    ({ allowed := false, remaining := 0,
       reset_time := (now : Int) + (if t > 0 then t else (window_seconds : Int)) }, st3)
  else
    let st3 := redis_zadd st2 now (pyStrOfNat now) now
    let st4 := redis_expire st3 now window_seconds
    ({ allowed := true, remaining := (limit : Int) - (c : Int) - 1,
       reset_time := (now : Int) + (window_seconds : Int) }, st4)

/- Fail-open paths of check_rate_limit: the early return when Redis is not
   connected (lines 221-223) and the except-Exception return (lines
   251-254) both produce the same dictionary. -/

def fail_open (limit : Nat) : RLResult :=
  { allowed := true, remaining := (limit : Int), reset_time := 0 }

def check_rate_limit_disconnected (limit : Nat) : RLResult := fail_open limit

/- check_rate_limit when the k-th Redis call of the body (1 = zremrangebyscore,
   2 = zcard, 3 = ttl or zadd, 4 = expire) raises: the calls before it took
   effect, the except clause returns the fail-open dictionary. -/

def check_rate_limit_raising (k : Nat) (st : RLState) (now limit window_seconds : Nat) :
    RLResult × RLState :=
  if k ≤ 1 then (fail_open limit, st)
  else
    let st1 := redis_zremrangebyscore st now 0 ((now : Int) - (window_seconds : Int))
    if k ≤ 2 then (fail_open limit, st1)
    else
      let c := (redis_zcard st1 now).1
      let st2 := (redis_zcard st1 now).2
      if c ≥ limit then (fail_open limit, st2)
      else if k ≤ 3 then (fail_open limit, st2)
      else (fail_open limit, redis_zadd st2 now (pyStrOfNat now) now)

def check_rate_limit_seq :
    RLState → List Nat → Nat → Nat → List RLResult × RLState
  | st, [], _, _ => ([], st)
  | st, t :: ts, limit, window_seconds =>
    let r := (check_rate_limit st t limit window_seconds).1
    let st1 := (check_rate_limit st t limit window_seconds).2
    let rest := check_rate_limit_seq st1 ts limit window_seconds
    (r :: rest.1, rest.2)

/- Invariant of the per-client sorted set: member strings are pairwise
   distinct (Redis set semantics) and each member is str() of its score. -/

def RLInv (st : RLState) : Prop :=
  (st.entries.map Prod.fst).Nodup ∧ ∀ p ∈ st.entries, p.1 = pyStrOfNat p.2

instance (st : RLState) : Decidable (RLInv st) := by
  unfold RLInv
  exact instDecidableAnd

/- State reached after the accepted calls recorded in done (in order),
   starting from an absent key. -/

def stateOf (done : List Nat) (window_seconds : Nat) : RLState :=
  { entries := done.map (fun t => (pyStrOfNat t, t)),
    expireAt := done.getLast?.map (fun last => last + window_seconds) }

/- ===== Interleaving semantics for two concurrent check_rate_limit calls =====
   Each await in the body is one atomic step against the store; between two
   awaits another request may run.  ReqPhase is the program counter of one
   in-flight call. -/

inductive ReqPhase
  | start
  | trimmed
  | counted (c : Nat)
  | added (c : Nat)
  | finished (r : RLResult)
deriving DecidableEq, Repr

def req_step (now limit window_seconds : Nat) :
    ReqPhase → RLState → ReqPhase × RLState
  | .start, st =>
    (.trimmed, redis_zremrangebyscore st now 0 ((now : Int) - (window_seconds : Int)))
  | .trimmed, st => (.counted (redis_zcard st now).1, (redis_zcard st now).2)
  | .counted c, st =>
    if c ≥ limit then
      let t := (redis_ttl st now).1
      let r : RLResult :=
        { allowed := false, remaining := 0,
          reset_time := (now : Int) + (if t > 0 then t else (window_seconds : Int)) }
      (.finished r, (redis_ttl st now).2)
    else
      (.added c, redis_zadd st now (pyStrOfNat now) now)
  | .added c, st =>
    let r : RLResult :=
      { allowed := true, remaining := (limit : Int) - (c : Int) - 1,
        reset_time := (now : Int) + (window_seconds : Int) }
    (.finished r, redis_expire st now window_seconds)
  | .finished r, st => (.finished r, st)

def run_two (now limit window_seconds : Nat) :
    List Bool → ReqPhase × ReqPhase × RLState → ReqPhase × ReqPhase × RLState
  | [], s => s
  | b :: bs, (pa, pb, st) =>
    if b then
      run_two now limit window_seconds bs
        ((req_step now limit window_seconds pa st).1, pb,
         (req_step now limit window_seconds pa st).2)
    else
      run_two now limit window_seconds bs
        (pa, (req_step now limit window_seconds pb st).1,
         (req_step now limit window_seconds pb st).2)

def run_one (now limit window_seconds : Nat) :
    Nat → ReqPhase × RLState → ReqPhase × RLState
  | 0, s => s
  | k + 1, (p, st) => run_one now limit window_seconds k (req_step now limit window_seconds p st)

def phase_allowed : ReqPhase → Option Bool
  | .finished r => some r.allowed
  | _ => none

/- ===== Cache-aside key derivation (src/app/redis_client.py) =====
   A filter dict is a list of (name, optional value) pairs with the value
   already rendered by str(); dict keys are unique.  sorted(filters.items())
   sorts by name (with distinct keys the value component never decides);
   py_sorted is an insertion sort by name.  Both cache_products and
   get_cached_products build "_".join of the f-string pieces and prefix
   products:. -/

def sorted_insert (p : String × Option String) :
    List (String × Option String) → List (String × Option String)
  | [] => [p]
  | q :: rest => if p.1 ≤ q.1 then p :: q :: rest else q :: sorted_insert p rest

def py_sorted (l : List (String × Option String)) : List (String × Option String) :=
  l.foldr sorted_insert []

def cache_products_key (filters : List (String × Option String)) : String :=
  "products:" ++ String.intercalate "_"
    ((py_sorted filters).filterMap (fun p => p.2.map (fun v => p.1 ++ "_" ++ v)))

def get_cached_products_key (filters : List (String × Option String)) : String :=
  "products:" ++ String.intercalate "_"
    ((py_sorted filters).filterMap (fun p => p.2.map (fun v => p.1 ++ "_" ++ v)))

/- Written from the words of the spec for comparison with the code path:
   canonicalize the filter parameters (sort by name, drop null values, join
   as name_value pairs) into a deterministic string, then prefix the
   products: namespace. -/

def spec_canonical_products_key (filters : List (String × Option String)) : String :=
  "products:" ++ String.intercalate "_"
    (((py_sorted filters).filter (fun p => p.2.isSome)).map
      (fun p => p.1 ++ "_" ++ p.2.getD ""))

def cache_user_key (user_id : Int) : String := "user:" ++ pyStrOfInt user_id

def get_cached_user_key (user_id : Int) : String := "user:" ++ pyStrOfInt user_id

def invalidate_user_cache_key (user_id : Int) : String := "user:" ++ pyStrOfInt user_id

/- ===== Side-effect traces of the user mutation paths =====
   update_user (src/app/crud.py lines 97-119) on the success path: select
   the user, execute the UPDATE, commit, refresh, return.  login_user
   (src/main.py lines 276-308): authenticate_user (which updates last_login
   and commits), then cache_user writes user:<id> with a 30 minute TTL.
   invalidate_user_cache (src/app/redis_client.py lines 205-208) deletes
   user:<id>; it is imported by src/main.py but called nowhere. -/

inductive Effect
  | dbSelect (table : String) (id : Int)
  | dbExecuteUpdate (table : String) (id : Int)
  | dbCommit
  | dbRefresh
  | redisDelete (cacheKey : String)
  | redisSetex (cacheKey : String) (seconds : Nat)
deriving DecidableEq, Repr

def Effect.isCacheDelete : Effect → Bool
  | .redisDelete _ => true
  | _ => false

def update_user_trace (user_id : Int) (userFound : Bool) : List Effect :=
  if userFound then
    [.dbSelect ("users") user_id, .dbExecuteUpdate ("users") user_id,
     .dbCommit, .dbRefresh]
  else
    [.dbSelect ("users") user_id]

def invalidate_user_cache_trace (user_id : Int) : List Effect :=
  [.redisDelete (invalidate_user_cache_key user_id)]

def authenticate_user_trace (user_id : Int) : List Effect :=
  [.dbSelect ("users") user_id, .dbExecuteUpdate ("users") user_id,
   .dbCommit, .dbRefresh]

def login_user_trace (user_id : Int) : List Effect :=
  authenticate_user_trace user_id ++
    [.redisSetex (cache_user_key user_id) (30 * 60)]

/- ===== Middleware composition (src/app/middleware.py, src/app/exceptions.py) =====
   RateLimitMiddleware.dispatch raises RateLimitError(limit, window,
   retry_after = reset_time - int(time.time())) on a rejected check and
   otherwise sets the three X-RateLimit headers on the downstream response.
   The error-handler middleware formats the exception as a JSON response
   with the status code of the exception (429 for the rate-limit error) and
   only the Retry-After header from _get_error_headers. -/

structure HttpResponse where
  status : Nat
  headers : List (String × String)
deriving DecidableEq, Repr

def headersSet : List (String × String) → String → String → List (String × String)
  | [], k, v => [(k, v)]
  | (k2, v2) :: rest, k, v =>
    if k2 = k then (k, v) :: rest else (k2, v2) :: headersSet rest k v

def headersGet : List (String × String) → String → Option String
  | [], _ => none
  | (k2, v2) :: rest, k => if k2 = k then some v2 else headersGet rest k

def setHeader (r : HttpResponse) (k v : String) : HttpResponse :=
  { r with headers := headersSet r.headers k v }

def getHeader (r : HttpResponse) (k : String) : Option String :=
  headersGet r.headers k

structure RateLimitErrorInfo where
  limit : Nat
  window_seconds : Nat
  retry_after : Int
deriving DecidableEq, Repr

def rateLimitStatusCode : Nat := 429

def rate_limit_dispatch (limit window_seconds now : Nat) (result : RLResult)
    (inner : HttpResponse) : Except RateLimitErrorInfo HttpResponse :=
  if !result.allowed then
    .error { limit := limit, window_seconds := window_seconds,
             retry_after := result.reset_time - (now : Int) }
  else
    .ok (setHeader
          (setHeader
            (setHeader inner ("X-RateLimit-Limit") (pyStrOfNat limit))
            ("X-RateLimit-Remaining") (pyStrOfInt result.remaining))
          ("X-RateLimit-Reset") (pyStrOfInt result.reset_time))

def error_handler_response : Except RateLimitErrorInfo HttpResponse → HttpResponse
  | .ok r => r
  | .error e =>
    { status := rateLimitStatusCode,
      headers := [(("Retry-After"), pyStrOfInt e.retry_after)] }

def handle_request (st : RLState) (now limit window_seconds : Nat)
    (inner : HttpResponse) : HttpResponse :=
  error_handler_response
    (rate_limit_dispatch limit window_seconds now
      (check_rate_limit st now limit window_seconds).1 inner)

theorem digitVal_digitChar {d : Nat} (h : d < 10) : digitVal (digitChar d) = some d := by
  interval_cases d <;> decide

theorem parseDigitsCore_append (l₁ l₂ : List Char) (a : Nat) :
    parseDigitsCore a (l₁ ++ l₂) =
      (parseDigitsCore a l₁).bind (fun b => parseDigitsCore b l₂) := by
  induction l₁ generalizing a with
  | nil => simp [parseDigitsCore]
  | cons c cs ih =>
    simp only [List.cons_append, parseDigitsCore]
    cases digitVal c with
    | none => simp
    | some d => simpa using ih (a * 10 + d)

theorem natDigitsAux_ne_nil (f n : Nat) : natDigitsAux (f + 1) n ≠ [] := by
  by_cases h : n < 10 <;> simp [natDigitsAux, h]

theorem natDigitsAux_head (f n : Nat) (h : n < f) :
    ∃ d cs, natDigitsAux f n = d :: cs ∧ d < 10 := by
  induction f generalizing n with
  | zero => omega
  | succ f ih =>
    by_cases h10 : n < 10
    · exact ⟨n, [], by simp [natDigitsAux, h10], h10⟩
    · have hdiv : n / 10 < n := Nat.div_lt_self (by omega) (by omega)
      obtain ⟨d, cs, heq, hd⟩ := ih (n / 10) (by omega)
      exact ⟨d, cs ++ [n % 10], by simp [natDigitsAux, h10, heq], hd⟩

theorem parseDigitsCore_natDigitsAux (f n : Nat) (h : n < f) (a : Nat) :
    ∃ k, parseDigitsCore a ((natDigitsAux f n).map digitChar) = some (a * 10 ^ k + n) := by
  induction f generalizing n a with
  | zero => omega
  | succ f ih =>
    by_cases h10 : n < 10
    · refine ⟨1, ?_⟩
      simp [natDigitsAux, h10, parseDigitsCore, digitVal_digitChar h10]
    · have hdiv : n / 10 < n := Nat.div_lt_self (by omega) (by omega)
      obtain ⟨k, hk⟩ := ih (n / 10) (by omega) a
      refine ⟨k + 1, ?_⟩
      have hmod : n % 10 < 10 := Nat.mod_lt _ (by omega)
      simp only [natDigitsAux, h10, if_false, List.map_append,
        parseDigitsCore_append, hk, Option.bind_some, List.map_cons, List.map_nil,
        parseDigitsCore, digitVal_digitChar hmod]
      have hdm := Nat.div_add_mod n 10
      have : (a * 10 ^ k + n / 10) * 10 + n % 10 = a * 10 ^ (k + 1) + n := by
        ring_nf
        omega
      simp only [Option.some_bind]
      rw [this]

theorem parseDigits_pyStrOfNat (n : Nat) : parseDigits ((pyStrOfNat n).data) = some n := by
  have hdata : (pyStrOfNat n).data = (natDigitsAux (n + 1) n).map digitChar := rfl
  have hne : natDigitsAux (n + 1) n ≠ [] := natDigitsAux_ne_nil n n
  obtain ⟨k, hk⟩ := parseDigitsCore_natDigitsAux (n + 1) n (by omega) 0
  rw [hdata, parseDigits]
  have : ((natDigitsAux (n + 1) n).map digitChar).isEmpty = false := by
    cases hcase : natDigitsAux (n + 1) n with
    | nil => exact absurd hcase hne
    | cons x xs => simp [hcase]
  rw [this]
  simpa using hk

theorem pyStrOfNat_inj {a b : Nat} (hab : pyStrOfNat a = pyStrOfNat b) : a = b := by
  have ha := parseDigits_pyStrOfNat a
  have hb := parseDigits_pyStrOfNat b
  rw [hab, hb] at ha
  exact (Option.some.injEq b a ▸ ha).symm

theorem pyIntOfChars_digit_head (d : Nat) (hd : d < 10) (cs : List Char) :
    pyIntOfChars (digitChar d :: cs) =
      (parseDigits (digitChar d :: cs)).map (fun n => Int.ofNat n) := by
  interval_cases d <;> rfl

theorem pyIntOfString_pyStrOfInt (i : Int) : pyIntOfString (pyStrOfInt i) = some i := by
  by_cases hneg : i < 0
  · have hdata : (pyStrOfInt i).data = '-' :: (pyStrOfNat i.natAbs).data := by
      simp only [pyStrOfInt, if_pos hneg]
      rfl
    rw [pyIntOfString, hdata]
    simp only [pyIntOfChars, parseDigits_pyStrOfNat, Option.map_some', Option.some.injEq,
      Int.ofNat_eq_natCast]
    omega
  · have h0 : pyStrOfInt i = pyStrOfNat i.natAbs := by
      simp [pyStrOfInt, hneg]
    obtain ⟨d, cs, heq, hd⟩ := natDigitsAux_head (i.natAbs + 1) i.natAbs (by omega)
    have hdata : (pyStrOfNat i.natAbs).data = digitChar d :: cs.map digitChar := by
      show (natDigitsAux (i.natAbs + 1) i.natAbs).map digitChar = _
      rw [heq]
      rfl
    rw [pyIntOfString, h0, hdata, pyIntOfChars_digit_head d hd, ← hdata,
      parseDigits_pyStrOfNat]
    simp only [Option.map_some', Option.some.injEq, Int.ofNat_eq_natCast]
    omega

/- ===== Token service theorems ===== -/

/-- Claim C2: for every integer user_id and every kind in access/refresh,
verifying a token freshly issued for that user_id and kind against the same
expected kind succeeds and returns exactly user_id, provided verification
occurs before the expiration instant. -/
theorem c2_issue_verify_roundtrip (user_id : Int) (t now : Nat) :
    (now < t + ACCESS_TOKEN_EXPIRE_MINUTES * 60 →
      verify_token (create_access_token user_id t) ("access") now = .ok user_id)
    ∧ (now < t + REFRESH_TOKEN_EXPIRE_DAYS * 24 * 60 * 60 →
      verify_token (create_refresh_token user_id t) ("refresh") now = .ok user_id) := by
  constructor
  · intro h
    have hexp : ¬ (t + ACCESS_TOKEN_EXPIRE_MINUTES * 60 ≤ now) := by omega
    simp [verify_token, jwt_decode, create_access_token, hexp,
      pyIntOfString_pyStrOfInt]
  · intro h
    have hexp : ¬ (t + REFRESH_TOKEN_EXPIRE_DAYS * 24 * 60 * 60 ≤ now) := by omega
    simp [verify_token, jwt_decode, create_refresh_token, hexp,
      pyIntOfString_pyStrOfInt]

/-- Claim C2 witness: issue(42, access) verified as access at a time before
expiry returns 42, and the same for a refresh token. -/
theorem c2_witness :
    verify_token (create_access_token 42 0) ("access") 10 = .ok 42
    ∧ verify_token (create_refresh_token 42 0) ("refresh") 10 = .ok 42 :=
  ⟨(c2_issue_verify_roundtrip 42 0 10).1 (by decide),
   (c2_issue_verify_roundtrip 42 0 10).2 (by decide)⟩

/-- Claim C3: an access token verified with expected kind refresh never
succeeds, and symmetrically; while the token is unexpired the failure is
exactly the HTTPException 401 with the wrong-token-type detail. -/
theorem c3_token_type_guard (user_id : Int) (t now : Nat) :
    (isOkE (verify_token (create_access_token user_id t) ("refresh") now) = false)
    ∧ (isOkE (verify_token (create_refresh_token user_id t) ("access") now) = false)
    ∧ (now < t + ACCESS_TOKEN_EXPIRE_MINUTES * 60 →
      verify_token (create_access_token user_id t) ("refresh") now =
        .error (.httpUnauthorized ("Tipo de token incorrecto")))
    ∧ (now < t + REFRESH_TOKEN_EXPIRE_DAYS * 24 * 60 * 60 →
      verify_token (create_refresh_token user_id t) ("access") now =
        .error (.httpUnauthorized ("Tipo de token incorrecto"))) := by
  refine ⟨?_, ?_, ?_, ?_⟩
  · by_cases hexp : t + ACCESS_TOKEN_EXPIRE_MINUTES * 60 ≤ now <;>
      simp [verify_token, jwt_decode, create_access_token, hexp, isOkE]
  · by_cases hexp : t + REFRESH_TOKEN_EXPIRE_DAYS * 24 * 60 * 60 ≤ now <;>
      simp [verify_token, jwt_decode, create_refresh_token, hexp, isOkE]
  · intro h
    have hexp : ¬ (t + ACCESS_TOKEN_EXPIRE_MINUTES * 60 ≤ now) := by omega
    simp [verify_token, jwt_decode, create_access_token, hexp]
  · intro h
    have hexp : ¬ (t + REFRESH_TOKEN_EXPIRE_DAYS * 24 * 60 * 60 ≤ now) := by omega
    simp [verify_token, jwt_decode, create_refresh_token, hexp]

/-- Claim C3 witness: a fresh access token checked against refresh, and a
fresh refresh token checked against access, both fail with the 401
wrong-token-type error. -/
theorem c3_witness :
    isOkE (verify_token (create_access_token 7 0) ("refresh") 10) = false
    ∧ verify_token (create_access_token 7 0) ("refresh") 10 =
        .error (.httpUnauthorized ("Tipo de token incorrecto"))
    ∧ verify_token (create_refresh_token 7 0) ("access") 10 =
        .error (.httpUnauthorized ("Tipo de token incorrecto")) :=
  ⟨(c3_token_type_guard 7 0 10).1,
   (c3_token_type_guard 7 0 10).2.2.1 (by decide),
   (c3_token_type_guard 7 0 10).2.2.2 (by decide)⟩

/-- Claim C6 counterexample: a validly signed, unexpired access token whose
sub claim is the non-decimal string abc makes verify_token fail with the
uncaught ValueError of int(), which is not an authentication failure. -/
theorem c6_counterexample :
    verify_token { payload := { sub := some ("abc"), exp := 1000, type := some ("access") },
                   key := SECRET_KEY } ("access") 5 = .error (.valueError ("abc"))
    ∧ (VerifyError.valueError ("abc")).isAuthFailure = false := by
  constructor
  · rfl
  · rfl

/-- Claim C6 amended: every verify_token failure is the HTTPException 401
authentication failure, except when a validly signed, unexpired token of
the expected type carries a sub claim that is not a decimal integer string;
in that case verify_token fails with the uncaught ValueError of int(). -/
theorem c6_verify_error_classification (tok : JwtToken) (expected : String) (now : Nat)
    (e : VerifyError) (h : verify_token tok expected now = .error e) :
    e.isAuthFailure = true
    ∨ (∃ s, e = .valueError s ∧ tok.key = SECRET_KEY ∧ now < tok.payload.exp
        ∧ tok.payload.type = some expected ∧ tok.payload.sub = some s
        ∧ pyIntOfString s = none) := by
  unfold verify_token at h
  split at h
  · left
    cases h
    rfl
  · rename_i payload heq
    have hkey : tok.key = SECRET_KEY := by
      by_contra hk
      simp [jwt_decode, hk] at heq
    have hexp : now < tok.payload.exp := by
      by_contra hx
      have hle : tok.payload.exp ≤ now := by omega
      simp [jwt_decode, hkey, hle] at heq
    have hpay : payload = tok.payload := by
      have hnle : ¬ tok.payload.exp ≤ now := by omega
      simp [jwt_decode, hkey, hnle] at heq
      exact heq.symm
    subst hpay
    split at h
    · left
      cases h
      rfl
    · rename_i htype
      split at h
      · left
        cases h
        rfl
      · rename_i s hsub
        split at h
        · cases h
        · rename_i hparse
          right
          refine ⟨s, ?_, hkey, hexp, ?_, hsub, hparse⟩
          · cases h
            rfl
          · simpa using htype

/- ===== Cache key and invalidation theorems ===== -/

theorem filterMap_pairs_eq_filter_map (l : List (String × Option String)) :
    l.filterMap (fun p => p.2.map (fun v => p.1 ++ "_" ++ v)) =
      (l.filter (fun p => p.2.isSome)).map (fun p => p.1 ++ "_" ++ p.2.getD "") := by
  induction l with
  | nil => rfl
  | cons p rest ih =>
    cases hp : p.2 with
    | none => simp [List.filterMap_cons, List.filter_cons, hp, ih]
    | some v => simp [List.filterMap_cons, List.filter_cons, hp, ih]

/-- Claim C9: the product cache key is the deterministic canonical string
(sort by name, drop null values, join name_value pairs, prefix products:),
written identically by the cache write path and the cache read path, and
user cache keys are user:<id> across all three user cache helpers. -/
theorem c9_cache_key_derivation (filters : List (String × Option String)) (user_id : Int) :
    cache_products_key filters = get_cached_products_key filters
    ∧ cache_products_key filters = spec_canonical_products_key filters
    ∧ cache_user_key user_id = "user:" ++ pyStrOfInt user_id
    ∧ get_cached_user_key user_id = cache_user_key user_id
    ∧ invalidate_user_cache_key user_id = cache_user_key user_id := by
  refine ⟨rfl, ?_, rfl, rfl, rfl⟩
  unfold cache_products_key spec_canonical_products_key
  rw [filterMap_pairs_eq_filter_map]

/-- Claim C4: evaluation of the user mutation paths.  update_user commits
the database update and returns without ever deleting the user:<id> cache
key, and login_user only writes user:<id> (cache_user); the only delete of
user:<id> in the code base is invalidate_user_cache, which no mutation path
calls. -/
theorem c4_update_user_no_cache_delete (user_id : Int) (userFound : Bool) :
    ((update_user_trace user_id userFound).all (fun e => !(e.isCacheDelete)) = true)
    ∧ ((login_user_trace user_id).all (fun e => !(e.isCacheDelete)) = true)
    ∧ invalidate_user_cache_trace user_id =
        [.redisDelete ("user:" ++ pyStrOfInt user_id)] := by
  refine ⟨?_, ?_, rfl⟩
  · cases userFound <;> simp [update_user_trace, Effect.isCacheDelete]
  · simp [login_user_trace, authenticate_user_trace, Effect.isCacheDelete]

/- ===== Fail-open theorems ===== -/

/-- Claim C5: when the store is unreachable (not connected) or any store
operation of the body raises, check_rate_limit returns the fail-open result
with allowed=true, and the middleware dispatch of that result forwards the
downstream response unchanged in status, so the request proceeds and the
failure is never propagated. -/
theorem c5_fail_open (st : RLState) (now limit window_seconds k : Nat)
    (inner : HttpResponse) :
    (check_rate_limit_disconnected limit).allowed = true
    ∧ (check_rate_limit_raising k st now limit window_seconds).1.allowed = true
    ∧ (error_handler_response (rate_limit_dispatch limit window_seconds now
        (check_rate_limit_disconnected limit) inner)).status = inner.status
    ∧ (error_handler_response (rate_limit_dispatch limit window_seconds now
        (check_rate_limit_raising k st now limit window_seconds).1 inner)).status
        = inner.status := by
  have hall : (check_rate_limit_raising k st now limit window_seconds).1 = fail_open limit := by
    unfold check_rate_limit_raising
    dsimp only
    split_ifs <;> rfl
  refine ⟨rfl, ?_, rfl, ?_⟩
  · rw [hall]
    rfl
  · rw [hall]
    rfl

/- ===== Non-atomicity of the four-step sequence ===== -/

theorem req_step_five_eq_check (st : RLState) (now limit window_seconds : Nat) :
    run_one now limit window_seconds 5 (.start, st) =
      (.finished (check_rate_limit st now limit window_seconds).1,
       (check_rate_limit st now limit window_seconds).2) := by
  set A := redis_zremrangebyscore st now 0 ((now : Int) - (window_seconds : Int)) with hA
  set c := (redis_zcard A now).1 with hc
  set B := (redis_zcard A now).2 with hB
  have e3 : run_one now limit window_seconds 5 (ReqPhase.start, st) =
      run_one now limit window_seconds 2
        (req_step now limit window_seconds (.counted c) B) := rfl
  rw [e3]
  unfold req_step check_rate_limit
  dsimp only
  by_cases h : c ≥ limit
  · rw [if_pos h, if_pos h]
    rfl
  · rw [if_neg h, if_neg h]
    rfl

/-- Claim C8: the four steps of check_rate_limit run as separate store
calls; the schedule that runs both trims, then both counts, then both adds,
lets two concurrent requests for the same client both observe count 0 and
both be admitted with limit=1, while the same two requests run sequentially
admit only the first. -/
theorem c8_nonatomic_interleaving :
    phase_allowed (run_two 100 1 60 [true, false, true, false, true, true, false, false]
      (.start, .start, { entries := [], expireAt := none })).1 = some true
    ∧ phase_allowed (run_two 100 1 60 [true, false, true, false, true, true, false, false]
      (.start, .start, { entries := [], expireAt := none })).2.1 = some true
    ∧ (check_rate_limit_seq { entries := [], expireAt := none } [100] 1 60).1.all
        (fun r => r.allowed) = true
    ∧ (check_rate_limit (check_rate_limit_seq { entries := [], expireAt := none }
        [100] 1 60).2 100 1 60).1.allowed = false := by
  refine ⟨rfl, rfl, rfl, rfl⟩

/- ===== Middleware header theorems ===== -/

theorem headersGet_headersSet_same (l : List (String × String)) (k v : String) :
    headersGet (headersSet l k v) k = some v := by
  induction l with
  | nil => simp [headersSet, headersGet]
  | cons p rest ih =>
    obtain ⟨k2, v2⟩ := p
    by_cases h : k2 = k <;> simp [headersSet, headersGet, h, ih]

theorem headersGet_headersSet_other (l : List (String × String)) (k k2 v : String)
    (hne : k2 ≠ k) :
    headersGet (headersSet l k v) k2 = headersGet l k2 := by
  induction l with
  | nil =>
    have : ¬ (k = k2) := fun hx => hne hx.symm
    simp [headersSet, headersGet, this]
  | cons p rest ih =>
    obtain ⟨k3, v3⟩ := p
    by_cases h : k3 = k
    · have hk2 : ¬ (k = k2) := fun hx => hne hx.symm
      have hk32 : ¬ (k3 = k2) := by rw [h]; exact hk2
      simp [headersSet, headersGet, h, hk2, hk32]
    · by_cases h2 : k3 = k2 <;> simp [headersSet, headersGet, h, h2, ih, hne]

theorem getHeader_setHeader_same (r : HttpResponse) (k v : String) :
    getHeader (setHeader r k v) k = some v :=
  headersGet_headersSet_same r.headers k v

theorem getHeader_setHeader_other (r : HttpResponse) (k k2 v : String) (hne : k2 ≠ k) :
    getHeader (setHeader r k v) k2 = getHeader r k2 :=
  headersGet_headersSet_other r.headers k k2 v hne

/-- Claim C7 amended: on the allowed path the response carries the three
X-RateLimit headers and the downstream status; on rejection the formatted
response is HTTP 429 with Retry-After equal to reset_time minus now, but it
carries no X-RateLimit headers. -/
theorem c7_rate_limit_headers (st : RLState) (now limit window_seconds : Nat)
    (inner : HttpResponse) :
    ((check_rate_limit st now limit window_seconds).1.allowed = true →
      getHeader (handle_request st now limit window_seconds inner) ("X-RateLimit-Limit")
          = some (pyStrOfNat limit)
        ∧ getHeader (handle_request st now limit window_seconds inner) ("X-RateLimit-Remaining")
          = some (pyStrOfInt (check_rate_limit st now limit window_seconds).1.remaining)
        ∧ getHeader (handle_request st now limit window_seconds inner) ("X-RateLimit-Reset")
          = some (pyStrOfInt (check_rate_limit st now limit window_seconds).1.reset_time)
        ∧ (handle_request st now limit window_seconds inner).status = inner.status)
    ∧ ((check_rate_limit st now limit window_seconds).1.allowed = false →
      (handle_request st now limit window_seconds inner).status = 429
        ∧ getHeader (handle_request st now limit window_seconds inner) ("Retry-After")
          = some (pyStrOfInt
              ((check_rate_limit st now limit window_seconds).1.reset_time - (now : Int)))
        ∧ getHeader (handle_request st now limit window_seconds inner) ("X-RateLimit-Limit")
          = none) := by
  constructor
  · intro h
    have hd : handle_request st now limit window_seconds inner =
        setHeader
          (setHeader
            (setHeader inner ("X-RateLimit-Limit") (pyStrOfNat limit))
            ("X-RateLimit-Remaining")
            (pyStrOfInt (check_rate_limit st now limit window_seconds).1.remaining))
          ("X-RateLimit-Reset")
          (pyStrOfInt (check_rate_limit st now limit window_seconds).1.reset_time) := by
      unfold handle_request rate_limit_dispatch
      rw [h]
      rfl
    rw [hd]
    refine ⟨?_, ?_, ?_, rfl⟩
    · rw [getHeader_setHeader_other _ _ _ _ (by decide),
        getHeader_setHeader_other _ _ _ _ (by decide), getHeader_setHeader_same]
    · rw [getHeader_setHeader_other _ _ _ _ (by decide), getHeader_setHeader_same]
    · rw [getHeader_setHeader_same]
  · intro h
    have hd : handle_request st now limit window_seconds inner =
        { status := rateLimitStatusCode,
          headers := [(("Retry-After"),
            pyStrOfInt
              ((check_rate_limit st now limit window_seconds).1.reset_time - (now : Int)))] } := by
      unfold handle_request rate_limit_dispatch
      rw [h]
      rfl
    rw [hd]
    exact ⟨rfl, rfl, rfl⟩

/-- Claim C7 witness: for a fresh client with limit 5, the allowed response
carries the three X-RateLimit headers and keeps the downstream 200 status. -/
theorem c7_witness :
    (check_rate_limit { entries := [], expireAt := none } 0 5 60).1.allowed = true
    ∧ (getHeader (handle_request { entries := [], expireAt := none } 0 5 60
          { status := 200, headers := [] }) ("X-RateLimit-Limit") = some (pyStrOfNat 5)
        ∧ getHeader (handle_request { entries := [], expireAt := none } 0 5 60
          { status := 200, headers := [] }) ("X-RateLimit-Remaining")
          = some (pyStrOfInt (check_rate_limit { entries := [], expireAt := none } 0 5 60).1.remaining)
        ∧ getHeader (handle_request { entries := [], expireAt := none } 0 5 60
          { status := 200, headers := [] }) ("X-RateLimit-Reset")
          = some (pyStrOfInt (check_rate_limit { entries := [], expireAt := none } 0 5 60).1.reset_time)
        ∧ (handle_request { entries := [], expireAt := none } 0 5 60
          { status := 200, headers := [] }).status = 200) :=
  ⟨rfl, (c7_rate_limit_headers { entries := [], expireAt := none } 0 5 60
    { status := 200, headers := [] }).1 rfl⟩

/-- Claim C7 counterexample: a rate-limit rejection is formatted as 429
with only the Retry-After header; it does not carry X-RateLimit-Limit, so
not every HTTP response carries the three X-RateLimit headers. -/
theorem c7_counterexample :
    (handle_request { entries := [(pyStrOfNat 90, 90)], expireAt := some 150 } 100 1 60
      { status := 200, headers := [] }).status = 429
    ∧ getHeader (handle_request { entries := [(pyStrOfNat 90, 90)], expireAt := some 150 }
        100 1 60 { status := 200, headers := [] }) ("X-RateLimit-Limit") = none
    ∧ getHeader (handle_request { entries := [(pyStrOfNat 90, 90)], expireAt := some 150 }
        100 1 60 { status := 200, headers := [] }) ("Retry-After") = some ("50") :=
  ⟨rfl, rfl, rfl⟩

/- ===== Sliding-window run lemmas (claim C1) ===== -/

theorem expireKeyAt_of_live (st : RLState) (now : Nat)
    (h : ∀ e, st.expireAt = some e → now < e) :
    expireKeyAt st now = st := by
  unfold expireKeyAt
  cases hx : st.expireAt with
  | none => rfl
  | some e =>
    have := h e hx
    dsimp only
    rw [if_neg (by omega)]

theorem dropEmptyKey_stateOf (done : List Nat) (w : Nat) :
    dropEmptyKey (stateOf done w) = stateOf done w := by
  cases done with
  | nil => rfl
  | cons d ds => rfl

theorem mem_of_getLast?_eq (l : List Nat) (a : Nat) (h : l.getLast? = some a) :
    a ∈ l := by
  have hmem : a ∈ l.getLast? := h
  obtain ⟨hne, heq⟩ := List.mem_getLast?_eq_getLast hmem
  rw [heq]
  exact List.getLast_mem hne

theorem getLast?_append_single (l : List Nat) (a : Nat) :
    (l ++ [a]).getLast? = some a := by
  rw [List.getLast?_append_cons]
  rfl

theorem stateOf_live (done : List Nat) (now w : Nat)
    (hwin : ∀ t ∈ done, (now : Int) < (t : Int) + (w : Int)) :
    ∀ e, (stateOf done w).expireAt = some e → now < e := by
  intro e he
  unfold stateOf at he
  cases hlast : done.getLast? with
  | none => rw [hlast] at he; cases he
  | some last =>
    rw [hlast] at he
    have hmem : last ∈ done := mem_of_getLast?_eq done last hlast
    have h1 := hwin last hmem
    have h2 : now < last + w := by exact_mod_cast h1
    simp only [Option.map_some', Option.some.injEq] at he
    omega

theorem zrem_stateOf (done : List Nat) (now w : Nat)
    (hwin : ∀ t ∈ done, (now : Int) < (t : Int) + (w : Int)) :
    redis_zremrangebyscore (stateOf done w) now 0 ((now : Int) - (w : Int))
      = stateOf done w := by
  unfold redis_zremrangebyscore
  rw [expireKeyAt_of_live _ _ (stateOf_live done now w hwin)]
  dsimp only
  have hfilter : (stateOf done w).entries.filter
      (fun p => decide (¬(0 ≤ (p.2 : Int) ∧ (p.2 : Int) ≤ (now : Int) - (w : Int))))
        = (stateOf done w).entries := by
    apply List.filter_eq_self.mpr
    intro a ha
    unfold stateOf at ha
    simp only [List.mem_map] at ha
    obtain ⟨t, ht, rfl⟩ := ha
    have := hwin t ht
    simp only [decide_eq_true_eq]
    omega
  rw [hfilter]
  exact dropEmptyKey_stateOf done w

theorem zcard_stateOf (done : List Nat) (now w : Nat)
    (hwin : ∀ t ∈ done, (now : Int) < (t : Int) + (w : Int)) :
    redis_zcard (stateOf done w) now = (done.length, stateOf done w) := by
  unfold redis_zcard
  rw [expireKeyAt_of_live _ _ (stateOf_live done now w hwin)]
  unfold stateOf
  simp

theorem check_rate_limit_step (done : List Nat) (now limit window_seconds : Nat)
    (hlt : ∀ t ∈ done, t < now)
    (hwin : ∀ t ∈ done, (now : Int) < (t : Int) + (window_seconds : Int))
    (hcount : done.length < limit) :
    check_rate_limit (stateOf done window_seconds) now limit window_seconds =
      ({ allowed := true, remaining := (limit : Int) - (done.length : Int) - 1,
         reset_time := (now : Int) + (window_seconds : Int) },
       stateOf (done ++ [now]) window_seconds) := by
  unfold check_rate_limit
  dsimp only
  rw [zrem_stateOf done now window_seconds hwin,
    zcard_stateOf done now window_seconds hwin]
  dsimp only
  rw [if_neg (by omega)]
  have hzadd : redis_zadd (stateOf done window_seconds) now (pyStrOfNat now) now =
      { entries := (done ++ [now]).map (fun t => (pyStrOfNat t, t)),
        expireAt := (stateOf done window_seconds).expireAt } := by
    unfold redis_zadd
    rw [expireKeyAt_of_live _ _ (stateOf_live done now window_seconds hwin)]
    have hany : (stateOf done window_seconds).entries.any
        (fun p => decide (p.1 = pyStrOfNat now)) = false := by
      apply List.any_eq_false.mpr
      intro a ha
      unfold stateOf at ha
      simp only [List.mem_map] at ha
      obtain ⟨t, ht, rfl⟩ := ha
      intro hstr
      have h1 := pyStrOfNat_inj (of_decide_eq_true hstr)
      have h2 := hlt t ht
      omega
    dsimp only
    rw [hany]
    rw [if_neg Bool.false_ne_true]
    unfold stateOf
    simp
  rw [hzadd]
  have hexpire : redis_expire
      ({ entries := (done ++ [now]).map (fun t => (pyStrOfNat t, t)),
         expireAt := (stateOf done window_seconds).expireAt } : RLState) now window_seconds =
      stateOf (done ++ [now]) window_seconds := by
    unfold redis_expire
    rw [expireKeyAt_of_live]
    · dsimp only
      have hne : (((done ++ [now]).map (fun t => (pyStrOfNat t, t))).isEmpty) = false := by
        simp
      rw [hne]
      rw [if_neg Bool.false_ne_true]
      unfold stateOf
      rw [getLast?_append_single]
      rfl
    · intro e he
      exact stateOf_live done now window_seconds hwin e he
  rw [hexpire]

theorem check_rate_limit_reject (done : List Nat) (now limit window_seconds : Nat)
    (hwin : ∀ t ∈ done, (now : Int) < (t : Int) + (window_seconds : Int))
    (hcount : done.length ≥ limit) :
    (check_rate_limit (stateOf done window_seconds) now limit window_seconds).1.allowed
      = false := by
  unfold check_rate_limit
  dsimp only
  rw [zrem_stateOf done now window_seconds hwin,
    zcard_stateOf done now window_seconds hwin]
  dsimp only
  rw [if_pos hcount]

theorem check_rate_limit_run (limit window_seconds T : Nat) :
    ∀ (ts done : List Nat),
      (done ++ ts).Pairwise (· < ·) →
      (∀ t ∈ done ++ ts, t ≤ T) →
      (∀ t ∈ done ++ ts, (T : Int) < (t : Int) + (window_seconds : Int)) →
      done.length + ts.length ≤ limit →
      ((check_rate_limit_seq (stateOf done window_seconds) ts limit window_seconds).1.all
          (fun r => r.allowed) = true)
      ∧ (check_rate_limit_seq (stateOf done window_seconds) ts limit window_seconds).2
          = stateOf (done ++ ts) window_seconds := by
  intro ts
  induction ts with
  | nil =>
    intro done _ _ _ _
    exact ⟨rfl, by simp [check_rate_limit_seq]⟩
  | cons t ts ih =>
    intro done hpw hle hwin hcnt
    have hlt : ∀ d ∈ done, d < t := by
      intro d hd
      exact (List.pairwise_append.mp hpw).2.2 d hd t (by simp)
    have htT : t ≤ T := hle t (by simp)
    have hwin_step : ∀ d ∈ done, (t : Int) < (d : Int) + (window_seconds : Int) := by
      intro d hd
      have h2 := hwin d (List.mem_append_left _ hd)
      have h3 : (t : Int) ≤ (T : Int) := by exact_mod_cast htT
      omega
    have hcount : done.length < limit := by
      simp only [List.length_cons] at hcnt
      omega
    have hstep := check_rate_limit_step done t limit window_seconds hlt hwin_step hcount
    have hassoc : done ++ t :: ts = (done ++ [t]) ++ ts := by
      rw [List.append_assoc]
      rfl
    obtain ⟨ihall, ihst⟩ := ih (done ++ [t])
      (by rw [hassoc] at hpw; exact hpw)
      (by intro x hx; exact hle x (by rw [hassoc]; exact hx))
      (by intro x hx; exact hwin x (by rw [hassoc]; exact hx))
      (by simp only [List.length_append, List.length_singleton, List.length_cons,
            List.length_nil] at hcnt ⊢; omega)
    unfold check_rate_limit_seq
    dsimp only
    rw [hstep]
    dsimp only
    refine ⟨?_, ?_⟩
    · simp only [List.all_cons, ihall, Bool.and_true]
    · rw [ihst, hassoc]

/-- Claim C1 amended: for a fresh client whose limit check calls happen at
pairwise distinct integer seconds, all within one window of the final
instant T, every one of the limit calls is allowed and the limit plus first
call at T is rejected.  (Distinctness of the seconds is required: calls in
the same second collapse into one sorted-set member, see the
counterexample.) -/
theorem c1_rate_limit_distinct_seconds (limit window_seconds : Nat) (ts : List Nat)
    (T : Nat)
    (hlen : ts.length = limit)
    (hsorted : ts.Pairwise (· < ·))
    (hle : ∀ t ∈ ts, t ≤ T)
    (hwin : ∀ t ∈ ts, (T : Int) < (t : Int) + (window_seconds : Int)) :
    ((check_rate_limit_seq { entries := [], expireAt := none } ts limit
        window_seconds).1.all (fun r => r.allowed) = true)
    ∧ (check_rate_limit (check_rate_limit_seq { entries := [], expireAt := none } ts
        limit window_seconds).2 T limit window_seconds).1.allowed = false := by
  have h0 : stateOf [] window_seconds = { entries := [], expireAt := none } := rfl
  obtain ⟨hall, hst⟩ := check_rate_limit_run limit window_seconds T ts []
    (by simpa using hsorted) (by simpa using hle) (by simpa using hwin)
    (by simp [hlen])
  rw [← h0]
  refine ⟨hall, ?_⟩
  rw [hst]
  simp only [List.nil_append]
  exact check_rate_limit_reject ts T limit window_seconds hwin (by omega)

/-- Claim C1 witness: limit 2, window 60, calls at seconds 10 and 11 are
both allowed and the third call at second 12 (inside the same window) is
rejected. -/
theorem c1_witness :
    ((check_rate_limit_seq { entries := [], expireAt := none } [10, 11] 2 60).1.all
        (fun r => r.allowed) = true)
    ∧ (check_rate_limit (check_rate_limit_seq { entries := [], expireAt := none }
        [10, 11] 2 60).2 12 2 60).1.allowed = false :=
  c1_rate_limit_distinct_seconds 2 60 [10, 11] 12 (by decide) (by decide)
    (by decide) (by decide)

/-- Claim C1 counterexample: limit 2, window 60, a client calling at second
100 twice gets both calls allowed (exactly limit calls inside one window),
yet the third call in the same second and window is also allowed, because
both accepted calls were stored under the single member str(100). -/
theorem c1_counterexample :
    ((check_rate_limit_seq { entries := [], expireAt := none } [100, 100] 2 60).1.map
        (fun r => r.allowed) = [true, true])
    ∧ (check_rate_limit (check_rate_limit_seq { entries := [], expireAt := none }
        [100, 100] 2 60).2 100 2 60).1.allowed = true :=
  ⟨rfl, rfl⟩

/- ===== Sorted-set member invariant (claim C10) ===== -/

theorem RLInv_nil : RLInv { entries := [], expireAt := none } := by
  constructor
  · simp
  · intro p hp
    cases hp

theorem RLInv_expireKeyAt (st : RLState) (now : Nat) (h : RLInv st) :
    RLInv (expireKeyAt st now) := by
  unfold expireKeyAt
  cases hx : st.expireAt with
  | none => exact h
  | some e =>
    dsimp only
    split_ifs with he
    · exact RLInv_nil
    · exact h

theorem RLInv_filter (st : RLState) (p : (String × Nat) → Bool) (h : RLInv st) :
    RLInv { st with entries := st.entries.filter p } := by
  constructor
  · have hs : List.Sublist ((st.entries.filter p).map Prod.fst)
        (st.entries.map Prod.fst) := (List.filter_sublist st.entries).map Prod.fst
    exact List.Nodup.sublist hs h.1
  · intro q hq
    exact h.2 q (List.mem_of_mem_filter hq)

theorem RLInv_dropEmptyKey (st : RLState) (h : RLInv st) : RLInv (dropEmptyKey st) := by
  unfold dropEmptyKey
  split_ifs <;> exact h

theorem RLInv_zrem (st : RLState) (now : Nat) (lo hi : Int) (h : RLInv st) :
    RLInv (redis_zremrangebyscore st now lo hi) := by
  unfold redis_zremrangebyscore
  dsimp only
  exact RLInv_dropEmptyKey _ (RLInv_filter _ _ (RLInv_expireKeyAt st now h))

theorem redis_zcard_snd (st : RLState) (now : Nat) :
    (redis_zcard st now).2 = expireKeyAt st now := rfl

theorem redis_ttl_snd (st : RLState) (now : Nat) :
    (redis_ttl st now).2 = expireKeyAt st now := by
  unfold redis_ttl
  dsimp only
  split_ifs with h
  · rfl
  · cases hx : (expireKeyAt st now).expireAt <;> simp [hx]

theorem RLInv_zadd (st : RLState) (now s : Nat) (h : RLInv st) :
    RLInv (redis_zadd st now (pyStrOfNat s) s) := by
  unfold redis_zadd
  have hE : RLInv (expireKeyAt st now) := RLInv_expireKeyAt st now h
  dsimp only
  split_ifs with hany
  · constructor
    · have hmap : ((expireKeyAt st now).entries.map
          (fun p => if p.1 = pyStrOfNat s then (pyStrOfNat s, s) else p)).map Prod.fst
            = (expireKeyAt st now).entries.map Prod.fst := by
        rw [List.map_map]
        apply List.map_congr_left
        intro p hp
        by_cases hps : p.1 = pyStrOfNat s <;> simp [hps]
      rw [hmap]
      exact hE.1
    · intro q hq
      simp only [List.mem_map] at hq
      obtain ⟨p, hp, rfl⟩ := hq
      by_cases hps : p.1 = pyStrOfNat s
      · simp [hps]
      · simp only [hps, if_false]
        exact hE.2 p hp
  · constructor
    · rw [List.map_append, List.nodup_append]
      refine ⟨hE.1, by simp, ?_⟩
      intro x hx hx2
      simp only [List.map_cons, List.map_nil, List.mem_singleton] at hx2
      subst hx2
      simp only [List.mem_map] at hx
      obtain ⟨p, hp, hp1⟩ := hx
      apply hany
      apply List.any_eq_true.mpr
      exact ⟨p, hp, by simp [hp1]⟩
    · intro q hq
      rw [List.mem_append] at hq
      rcases hq with hq | hq
      · exact hE.2 q hq
      · simp only [List.mem_singleton] at hq
        subst hq
        rfl

theorem RLInv_expire (st : RLState) (now w : Nat) (h : RLInv st) :
    RLInv (redis_expire st now w) := by
  unfold redis_expire
  have hE : RLInv (expireKeyAt st now) := RLInv_expireKeyAt st now h
  dsimp only
  split_ifs <;> exact hE

theorem scores_nodup_of_RLInv (st : RLState) (h : RLInv st) :
    (st.entries.map Prod.snd).Nodup := by
  have h1 : st.entries.map Prod.fst = (st.entries.map Prod.snd).map pyStrOfNat := by
    rw [List.map_map]
    apply List.map_congr_left
    intro p hp
    exact h.2 p hp
  have h2 := h.1
  rw [h1] at h2
  exact List.Nodup.of_map _ h2

theorem length_filter_lt (l : List (String × Nat)) (a : String × Nat)
    (p : (String × Nat) → Bool) (ha : a ∈ l) (hpa : p a = false) :
    (l.filter p).length < l.length := by
  induction l with
  | nil => cases ha
  | cons b bs ih =>
    rcases List.mem_cons.mp ha with rfl | ha2
    · simp only [List.filter_cons, hpa, Bool.false_eq_true, if_false]
      have := List.length_filter_le p bs
      simp only [List.length_cons]
      omega
    · cases hpb : p b
      · simp only [List.filter_cons, hpb, Bool.false_eq_true, if_false, List.length_cons]
        have := ih ha2
        omega
      · simp only [List.filter_cons, hpb, if_true, List.length_cons]
        have := ih ha2
        omega

theorem zadd_entries (X : RLState) (now : Nat) (m : String) (s : Nat)
    (hX : ∀ e, X.expireAt = some e → now < e) :
    (redis_zadd X now m s).entries =
      if X.entries.any (fun p => decide (p.1 = m)) = true
      then X.entries.map (fun p => if p.1 = m then (m, s) else p)
      else X.entries ++ [(m, s)] := by
  unfold redis_zadd
  rw [expireKeyAt_of_live _ _ hX]
  dsimp only
  split_ifs with h <;> rfl

theorem zadd_expireAt (X : RLState) (now : Nat) (m : String) (s : Nat)
    (hX : ∀ e, X.expireAt = some e → now < e) :
    (redis_zadd X now m s).expireAt = X.expireAt := by
  unfold redis_zadd
  rw [expireKeyAt_of_live _ _ hX]
  dsimp only
  split_ifs <;> rfl

theorem expire_entries (X : RLState) (now w : Nat)
    (hX : ∀ e, X.expireAt = some e → now < e) :
    (redis_expire X now w).entries = X.entries := by
  unfold redis_expire
  rw [expireKeyAt_of_live _ _ hX]
  dsimp only
  split_ifs <;> rfl

theorem expireKeyAt_cases (st : RLState) (now : Nat) :
    expireKeyAt st now = st ∨ expireKeyAt st now = { entries := [], expireAt := none } := by
  unfold expireKeyAt
  cases hx : st.expireAt with
  | none => left; rfl
  | some e =>
    dsimp only
    split_ifs with he
    · right; rfl
    · left; rfl

/-- Claim C10: check_rate_limit records an accepted request by adding the
member str(current_time) with its second as score; under the sorted-set
invariant (distinct members, each member the str of its score) the
per-client collection holds at most one entry per integer second, every
check preserves the invariant, and an accepted request arriving in a second
already recorded collapses into the existing member instead of increasing
the entry count. -/
theorem c10_same_second_collapse (st : RLState) (now limit window_seconds : Nat)
    (hInv : RLInv st) :
    RLInv (check_rate_limit st now limit window_seconds).2
    ∧ (st.entries.map Prod.snd).Nodup
    ∧ ((pyStrOfNat now, now) ∈ st.entries →
        (check_rate_limit st now limit window_seconds).2.entries.length
          ≤ st.entries.length) := by
  have hzremInv : RLInv (redis_zremrangebyscore st now 0
      ((now : Int) - (window_seconds : Int))) := RLInv_zrem st now 0 _ hInv
  refine ⟨?_, scores_nodup_of_RLInv st hInv, ?_⟩
  · unfold check_rate_limit
    dsimp only
    split_ifs with hc ht
    · rw [redis_ttl_snd, redis_zcard_snd]
      exact RLInv_expireKeyAt _ _ (RLInv_expireKeyAt _ _ hzremInv)
    · rw [redis_ttl_snd, redis_zcard_snd]
      exact RLInv_expireKeyAt _ _ (RLInv_expireKeyAt _ _ hzremInv)
    · rw [redis_zcard_snd]
      exact RLInv_expire _ _ _ (RLInv_zadd _ _ _ (RLInv_expireKeyAt _ _ hzremInv))
  · intro hmem
    rcases expireKeyAt_cases st now with hE | hE
    · -- key not expired at now
      have hlive : ∀ e, st.expireAt = some e → now < e := by
        intro e he
        by_contra hnow
        have hle : e ≤ now := by omega
        unfold expireKeyAt at hE
        rw [he] at hE
        dsimp only at hE
        rw [if_pos hle] at hE
        rw [← hE] at he
        simp at he
      set pr := (fun (p : String × Nat) => decide (¬(0 ≤ (p.2 : Int)
        ∧ (p.2 : Int) ≤ (now : Int) - (window_seconds : Int)))) with hprdef
      set F := st.entries.filter pr with hFdef
      have h1 : redis_zremrangebyscore st now 0 ((now : Int) - (window_seconds : Int))
          = dropEmptyKey { st with entries := F } := by
        unfold redis_zremrangebyscore
        rw [hE]
      have hS1entries : (dropEmptyKey { st with entries := F }).entries = F := by
        unfold dropEmptyKey
        split_ifs <;> rfl
      have hS1live : ∀ e, (dropEmptyKey { st with entries := F }).expireAt = some e
          → now < e := by
        unfold dropEmptyKey
        split_ifs with hemp
        · intro e he
          simp at he
        · intro e he
          exact hlive e he
      have hexp1 : expireKeyAt (dropEmptyKey { st with entries := F }) now
          = dropEmptyKey { st with entries := F } :=
        expireKeyAt_of_live _ _ hS1live
      have hFle : F.length ≤ st.entries.length := by
        rw [hFdef]
        exact List.length_filter_le _ _
      have hzc : redis_zcard (dropEmptyKey { st with entries := F }) now
          = (F.length, dropEmptyKey { st with entries := F }) := by
        unfold redis_zcard
        rw [hexp1]
        dsimp only
        rw [hS1entries]
      unfold check_rate_limit
      dsimp only
      rw [h1, hzc]
      dsimp only
      split_ifs with hc ht
      · rw [redis_ttl_snd, hexp1, hS1entries]
        exact hFle
      · rw [redis_ttl_snd, hexp1, hS1entries]
        exact hFle
      · have hzaddlive : ∀ e,
            (redis_zadd (dropEmptyKey { st with entries := F }) now
              (pyStrOfNat now) now).expireAt = some e → now < e := by
          rw [zadd_expireAt _ _ _ _ hS1live]
          exact hS1live
        rw [expire_entries _ _ _ hzaddlive, zadd_entries _ _ _ _ hS1live, hS1entries]
        split_ifs with hany
        · rw [List.length_map]
          exact hFle
        · rw [List.length_append]
          have hnotinF : (pyStrOfNat now, now) ∉ F := by
            intro hin
            apply hany
            apply List.any_eq_true.mpr
            exact ⟨(pyStrOfNat now, now), hin, by simp⟩
          have hpred : pr (pyStrOfNat now, now) = false := by
            by_contra hp
            have hp2 := eq_true_of_ne_false hp
            apply hnotinF
            rw [hFdef]
            exact List.mem_filter.mpr ⟨hmem, hp2⟩
          have hstrict := length_filter_lt st.entries (pyStrOfNat now, now) pr hmem hpred
          rw [hFdef]
          simp only [List.length_singleton]
          omega
    · -- key expired at now: the whole key is gone before the check
      have h1 : redis_zremrangebyscore st now 0 ((now : Int) - (window_seconds : Int))
          = { entries := [], expireAt := none } := by
        unfold redis_zremrangebyscore
        rw [hE]
        rfl
      have hpos : 0 < st.entries.length := List.length_pos_of_mem hmem
      unfold check_rate_limit
      dsimp only
      rw [h1]
      have hzc : redis_zcard { entries := [], expireAt := none } now
          = (0, { entries := [], expireAt := none }) := rfl
      rw [hzc]
      dsimp only
      split_ifs with hc ht
      · have hts : (redis_ttl { entries := [], expireAt := none } now).2
            = { entries := [], expireAt := none } := rfl
        rw [hts]
        simp
      · have hts : (redis_ttl { entries := [], expireAt := none } now).2
            = { entries := [], expireAt := none } := rfl
        rw [hts]
        simp
      · have hstep : redis_expire (redis_zadd { entries := [], expireAt := none } now
            (pyStrOfNat now) now) now window_seconds
              = { entries := [(pyStrOfNat now, now)],
                  expireAt := some (now + window_seconds) } := rfl
        rw [hstep]
        simpa using hpos

/-- Claim C10 witness: a state holding one entry for second 5 satisfies the
invariant; a second accepted call at second 5 keeps a single entry. -/
theorem c10_witness :
    RLInv { entries := [(pyStrOfNat 5, 5)], expireAt := some 65 }
    ∧ (RLInv (check_rate_limit { entries := [(pyStrOfNat 5, 5)], expireAt := some 65 }
          5 10 60).2
        ∧ (({ entries := [(pyStrOfNat 5, 5)], expireAt := some 65 } : RLState).entries.map
            Prod.snd).Nodup
        ∧ ((pyStrOfNat 5, 5)
              ∈ ({ entries := [(pyStrOfNat 5, 5)], expireAt := some 65 } : RLState).entries →
            (check_rate_limit { entries := [(pyStrOfNat 5, 5)], expireAt := some 65 }
              5 10 60).2.entries.length
              ≤ ({ entries := [(pyStrOfNat 5, 5)], expireAt := some 65 } : RLState).entries.length)) :=
  ⟨by decide,
   c10_same_second_collapse { entries := [(pyStrOfNat 5, 5)], expireAt := some 65 }
     5 10 60 (by decide)⟩

/-- Claim C6 witness: the classification applied to the concrete
non-decimal-sub token shows its failure falls in the ValueError case. -/
theorem c6_witness :
    verify_token
      (⟨⟨some ("abc"), 1000, some ("access")⟩, SECRET_KEY⟩ : JwtToken) ("access") 5
        = .error (.valueError ("abc"))
    ∧ ((VerifyError.valueError ("abc")).isAuthFailure = true
        ∨ (∃ s, VerifyError.valueError ("abc") = .valueError s
            ∧ (⟨⟨some ("abc"), 1000, some ("access")⟩, SECRET_KEY⟩ : JwtToken).key
                = SECRET_KEY
            ∧ 5 < (⟨⟨some ("abc"), 1000, some ("access")⟩, SECRET_KEY⟩ : JwtToken).payload.exp
            ∧ (⟨⟨some ("abc"), 1000, some ("access")⟩, SECRET_KEY⟩ : JwtToken).payload.type
                = some ("access")
            ∧ (⟨⟨some ("abc"), 1000, some ("access")⟩, SECRET_KEY⟩ : JwtToken).payload.sub
                = some s
            ∧ pyIntOfString s = none)) :=
  ⟨by rfl,
   c6_verify_error_classification
     (⟨⟨some ("abc"), 1000, some ("access")⟩, SECRET_KEY⟩ : JwtToken) ("access") 5
     (.valueError ("abc")) (by rfl)⟩
